import Mathlib

/-!
Verification of the Workspace Server (`crates/biome_service/src/workspace/server.rs`).

The development shallowly embeds the sequential semantics of the server:
pure Rust functions become Lean functions, the concurrent `papaya` document
map becomes a function-backed map with the same `get`/`insert`/`update`/
`remove` contract, and external collaborators (file system, per-language
parsers, capability tables, the settings registry in `crate::projects`,
glob matchers) are modelled as explicit function-valued parameters carried
in the server state.
-/

namespace Biome

/-- Paths are UTF-8 strings (`BiomePath` wraps `Utf8PathBuf`). -/
abbrev Path := String

/-- Splits a list of characters on a separator character.
Structural counterpart of splitting a path on `/`. -/
def splitOnChar (c : Char) : List Char → List (List Char)
  | [] => [[]]
  | x :: xs =>
    let r := splitOnChar c xs
    if x == c then [] :: r
    else
      match r with
      | [] => [[x]]
      | y :: ys => (x :: y) :: ys

/-- `Utf8Path::file_name`: the final component of the path, if non-empty. -/
def fileName (p : Path) : Option String :=
  match (splitOnChar '/' p.data).getLast? with
  | some s => if s.isEmpty then none else some (String.mk s)
  | none => none

/-- `Utf8Path::extension`: the substring of the file name after the last
dot, provided the stem is non-empty (so `.gitignore` has no extension). -/
def pathExtension (p : Path) : Option String :=
  match fileName p with
  | none => none
  | some name =>
    match h : splitOnChar '.' name.data with
    | [] => none
    | [_] => none
    | first :: rest =>
      if first.isEmpty && rest.length == 1 then none
      else ((first :: rest).getLast (by simp)).asString |> some

/-- `str::starts_with` on paths (ancestor-prefix test, modelled on the
character sequence). -/
def strStartsWith (s pre : Path) : Bool :=
  pre.data.isPrefixOf s.data

/-- `Utf8Path::has_root`: absolute paths start with `/`. -/
def pathHasRoot (p : Path) : Bool :=
  match p.data with
  | c :: _ => c == '/'
  | [] => false

/-- `biome_js_syntax::ModuleKind`. -/
inductive ModuleKind
  | module
  | script
deriving DecidableEq

/-- Modelled from the spec: the JavaScript file-source descriptor
(`biome_js_syntax::JsFileSource`, not under `src/`). The two attributes
the server consults are the file extension the source was resolved from
and the module kind (§3 "File source", §4.5 step 2). -/
structure JsFileSource where
  file_extension : String
  module_kind : ModuleKind
deriving DecidableEq

/-- `JsFileSource::set_module_kind`. -/
def JsFileSource.set_module_kind (js : JsFileSource) (kind : ModuleKind) : JsFileSource :=
  { js with module_kind := kind }

/-- Modelled from the spec: `DocumentFileSource` (defined in
`crate::file_handlers`, not under `src/`): a descriptor identifying a
language/variant (§3 "File source"). -/
inductive DocumentFileSource
  | js (source : JsFileSource)
  | json
  | unknown
deriving DecidableEq

/-- Modelled from the spec: `DocumentFileSource::from_path` infers the
language descriptor from the path's extension (§4.5 step 1). -/
def DocumentFileSource.from_path (path : Path) : DocumentFileSource :=
  match pathExtension path with
  | some "js" => .js ⟨"js", .module⟩
  | some "jsx" => .js ⟨"jsx", .module⟩
  | some "mjs" => .js ⟨"mjs", .module⟩
  | some "cjs" => .js ⟨"cjs", .script⟩
  | some "ts" => .js ⟨"ts", .module⟩
  | some "tsx" => .js ⟨"tsx", .module⟩
  | some "mts" => .js ⟨"mts", .module⟩
  | some "cts" => .js ⟨"cts", .script⟩
  | some "json" => .json
  | some "jsonc" => .json
  | _ => .unknown

/-- Modelled from the spec: `DocumentFileSource::or` keeps `self` unless
it is `Unknown` (used by `build_capability_error`). -/
def DocumentFileSource.or (a b : DocumentFileSource) : DocumentFileSource :=
  match a with
  | .unknown => b
  | s => s

/-- `biome_project::PackageType` (`type` field of `package.json`). -/
inductive PackageType
  | module
  | commonjs
deriving DecidableEq

/-- The project manifest: `type ∈ {"module","commonjs", absent}` (§6). -/
structure PackageJson where
  type : Option PackageType
deriving DecidableEq

/-- A single parse diagnostic; only the error/non-error severity split is
observable through the server. -/
structure Diag where
  message : String
  is_error : Bool
deriving DecidableEq

/-- `biome_parser::AnyParse`: the successful result of an external
per-language parser. The server only forwards it, asks whether it has
errors, and extracts its diagnostics. -/
structure AnyParse where
  text : String
  has_errors : Bool
  diagnostics : List Diag
deriving DecidableEq

/-- `crate::diagnostics::FileTooLarge`: the "file too large" marker with
observed size and configured limit. -/
structure FileTooLarge where
  size : Nat
  limit : Nat
deriving DecidableEq

instance : DecidableEq (Except FileTooLarge AnyParse) := fun a b =>
  match a, b with
  | .ok x, .ok y =>
    if h : x = y then isTrue (by rw [h]) else isFalse (fun hc => by cases hc; exact h rfl)
  | .error x, .error y =>
    if h : x = y then isTrue (by rw [h]) else isFalse (fun hc => by cases hc; exact h rfl)
  | .ok _, .error _ => isFalse (fun hc => by cases hc)
  | .error _, .ok _ => isFalse (fun hc => by cases hc)

/-- `crate::file_handlers::ParseResult`: the parsed tree plus an optional
refined file source reported by the parser (§4.5 step 6). -/
structure ParseResult where
  any_parse : AnyParse
  language : Option DocumentFileSource

/-- A document opened in the workspace (`Document` in `server.rs`). The
`parse` field is the `syntax` field of the Rust struct: either a
successful parse or the "file too large" marker. -/
structure Document where
  content : String
  version : Int
  file_source_index : Nat
  parse : Except FileTooLarge AnyParse
  opened_by_scanner : Bool
deriving DecidableEq

/-- The concurrent `papaya` document map, modelled by its observable
get/insert/update/remove contract (§4.2). -/
def DocMap := Path → Option Document

/-- Snapshot read of the current document. -/
def docGet (m : DocMap) (p : Path) : Option Document := m p

/-- Unconditional replacement; returns the prior value if present. -/
def docInsert (m : DocMap) (p : Path) (d : Document) : Option Document × DocMap :=
  (m p, fun q => if q == p then some d else m q)

/-- Delete an entry; no-op if absent. -/
def docRemove (m : DocMap) (p : Path) : DocMap :=
  fun q => if q == p then none else m q

/-- Atomic in-place update of an existing entry; no-op if absent. -/
def docUpdate (m : DocMap) (p : Path) (f : Document → Document) : DocMap :=
  fun q => if q == p then (m p).map f else m q

/-- The empty document map. -/
def docEmpty : DocMap := fun _ => none

/-- A compiled Grit search query (`biome_grit_patterns::GritQuery`); its
contents are opaque to the server, which only stores and forwards it. -/
abbrev GritQuery := String

/-- `PatternId`: a newtype over the generated id string. -/
abbrev PatternId := String

/-- The pattern registry (`papaya` map from id to compiled query). -/
def PatMap := PatternId → Option GritQuery

/-- Pattern registry read. -/
def patGet (m : PatMap) (p : PatternId) : Option GritQuery := m p

/-- Pattern registry insert (unconditional replacement). -/
def patInsert (m : PatMap) (p : PatternId) (q : GritQuery) : PatMap :=
  fun r => if r == p then some q else m r

/-- Pattern registry remove. -/
def patRemove (m : PatMap) (p : PatternId) : PatMap :=
  fun r => if r == p then none else m r

/-- The empty pattern registry. -/
def patEmpty : PatMap := fun _ => none

/-- The node-cache key set (`Mutex<FxHashMap<Utf8PathBuf, NodeCache>>`);
the reparse helpers themselves are opaque, so the model tracks which
paths hold an entry. -/
def NodeCacheMap := Path → Bool

/-- Node-cache membership. -/
def ncContains (m : NodeCacheMap) (p : Path) : Bool := m p

/-- Node-cache insert. -/
def ncInsert (m : NodeCacheMap) (p : Path) : NodeCacheMap :=
  fun q => if q == p then true else m q

/-- Node-cache remove. -/
def ncRemove (m : NodeCacheMap) (p : Path) : NodeCacheMap :=
  fun q => if q == p then false else m q

/-- The empty node cache. -/
def ncEmpty : NodeCacheMap := fun _ => false

/-- The glob matchers of `files.include` / `files.ignore`: a list of
compiled patterns, each an opaque path predicate. `matches_path` is a
disjunction over the patterns, so an empty matcher matches nothing. -/
structure Matcher where
  pats : List (Path → Bool)

/-- `Matcher::is_empty`. -/
def Matcher.is_empty (m : Matcher) : Bool := m.pats.isEmpty

/-- `Matcher::matches_path`. -/
def Matcher.matches_path (m : Matcher) (p : Path) : Bool :=
  m.pats.any (fun f => f p)

/-- A compiled gitignore matcher: its root path and the (opaque)
`matched_path_or_any_parents(path, is_dir).is_ignore()` predicate. -/
structure GitIgnoreModel where
  root : Path
  matched_path_or_any_parents : Path → Bool → Bool

/-- The `files` section of a project's merged settings. -/
structure FilesSettings where
  included_files : Matcher
  ignored_files : Matcher
  git_ignore : Option GitIgnoreModel

/-- A feature of the workspace (`FeatureKind` behind `FeatureName`). -/
inductive Feature
  | format
  | lint
  | organizeImports
  | search
  | assists
deriving DecidableEq

/-- `FeatureName`: the requested feature set, in iteration order. -/
abbrev FeatureName := List Feature

/-- `ProjectKey`: opaque key into the project registry. -/
abbrev ProjectKey := Nat

/-- Modelled from the spec: the per-project state held by the
`crate::projects::Projects` registry (not under `src/`): root path,
merged settings (size limit, files config, formatter flag, per-feature
ignore predicates) and the optional manifest (§3 "Project"). -/
structure ProjectData where
  project_path : Path
  max_file_size : Nat
  manifest : Option PackageJson
  files_settings : Option FilesSettings
  format_with_errors : Bool
  feature_ignored : Feature → Path → Bool

/-- Modelled from the spec: the project registry keyed by `ProjectKey`. -/
def Projects := ProjectKey → Option ProjectData

/-- Project lookup. -/
def Projects.lookup (s : Projects) (k : ProjectKey) : Option ProjectData := s k

/-- Default per-project size limit used when the project is unknown. -/
def default_max_file_size : Nat := 1048576

/-- Modelled from the spec: `Projects::get_max_file_size` (§4.5 step 5). -/
def Projects.get_max_file_size (s : Projects) (k : ProjectKey) : Nat :=
  ((s.lookup k).map (fun d => d.max_file_size)).getD default_max_file_size

/-- Modelled from the spec: `Projects::get_manifest`. -/
def Projects.get_manifest (s : Projects) (k : ProjectKey) : Option PackageJson :=
  (s.lookup k).bind (fun d => d.manifest)

/-- Modelled from the spec: `Projects::get_files_settings`. -/
def Projects.get_files_settings (s : Projects) (k : ProjectKey) : Option FilesSettings :=
  (s.lookup k).bind (fun d => d.files_settings)

/-- Modelled from the spec: `Projects::is_ignored_by_feature_config`:
whether the per-feature include/ignore configuration ignores the path. -/
def Projects.is_ignored_by_feature_config (s : Projects) (k : ProjectKey)
    (p : Path) (f : Feature) : Bool :=
  match s.lookup k with
  | some d => d.feature_ignored f p
  | none => false

/-- Modelled from the spec: `Projects::get_settings` exposed as the
`format_with_errors` formatter flag, the only settings field the
formatter entry points consult (§4.5). -/
def Projects.get_settings (s : Projects) (k : ProjectKey) : Option ProjectData :=
  s.lookup k

/-- Modelled from the spec: `Projects::insert_manifest` replaces the
manifest of a registered project. -/
def Projects.insert_manifest (s : Projects) (k : ProjectKey)
    (m : Option PackageJson) : Projects :=
  fun j => if j == k then ((s j).map (fun d => { d with manifest := m })) else s j

/-- `WorkspaceError` (§7): the error taxonomy of server operations. -/
inductive WorkspaceError
  | not_found
  | no_project
  | source_file_not_supported (source : DocumentFileSource) (path : String)
      (ext : Option String)
  | file_ignored (path : String)
  | format_with_errors_disabled
  | invalid_pattern
  | pattern_compile_error
  | io_error
deriving DecidableEq

/-- The external collaborators dispatched through the capability table
(`crate::file_handlers::Features`) plus the external JSON parser,
manifest deserializer and Grit pattern compiler. A `..._cap` field tells
whether the optional capability function is present for a path/language;
the corresponding `..._fn` field is its behavior when present. -/
structure Features where
  parser_cap : Path → DocumentFileSource → Bool
  parse_fn : Path → DocumentFileSource → String → ParseResult
  lint_cap : Path → DocumentFileSource → Bool
  lint_fn : Path → AnyParse → List Diag × Nat × Nat
  format_cap : Path → DocumentFileSource → Bool
  format_fn : Path → DocumentFileSource → AnyParse → Except WorkspaceError String
  debug_syntax_tree_cap : Path → DocumentFileSource → Bool
  debug_syntax_tree_fn : Path → AnyParse → String
  search_cap : Path → DocumentFileSource → Bool
  search_fn : Path → DocumentFileSource → AnyParse → GritQuery →
    Except WorkspaceError (List String)
  parse_json_fn : String → AnyParse
  deserialize_manifest_fn : String → Option PackageJson
  compile_pattern_fn : String → Option GritQuery

/-- The file-system collaborator (`dyn FileSystem` plus `crate::is_dir`). -/
structure FileSystemModel where
  read_file : Path → Option String
  is_dir : Path → Bool

/-- The workspace server state (`WorkspaceServer`). The process-global
pattern-id counter (a `static AtomicUsize` in the source) is carried as
the `pattern_counter` field. -/
structure WorkspaceServer where
  features : Features
  settings : Projects
  documents : DocMap
  file_sources : List DocumentFileSource
  patterns : PatMap
  node_cache : NodeCacheMap
  fs : FileSystemModel
  pattern_counter : Nat

/-- `WorkspaceServer::new`: fresh server; the pattern counter starts
at 1 (`AtomicUsize::new(1)`). -/
def WorkspaceServer.new (features : Features) (fs : FileSystemModel) : WorkspaceServer :=
  { features := features
    settings := fun _ => none
    documents := docEmpty
    file_sources := []
    patterns := patEmpty
    node_cache := ncEmpty
    fs := fs
    pattern_counter := 1 }

/-- `Iterator::position`: index of the first element satisfying `p`. -/
def listPosition (p : α → Bool) : List α → Option Nat
  | [] => none
  | x :: xs => if p x then some 0 else (listPosition p xs).map (fun i => i + 1)

/-- `WorkspaceServer::insert_source`: return the index of an equal
registered source, else append and return the new index. -/
def WorkspaceServer.insert_source (w : WorkspaceServer)
    (source : DocumentFileSource) : Nat × WorkspaceServer :=
  match listPosition (fun t => t == source) w.file_sources with
  | some i => (i, w)
  | none => (w.file_sources.length, { w with file_sources := w.file_sources ++ [source] })

/-- `WorkspaceServer::get_source`: lookup by index, `none` out of range. -/
def WorkspaceServer.get_source (w : WorkspaceServer) (index : Nat) :
    Option DocumentFileSource :=
  if h : index < w.file_sources.length then
    some (w.file_sources.get ⟨index, h⟩)
  else
    none

/-- `WorkspaceServer::get_file_source`: the stored document's interned
source if resolvable, else inferred from the path. -/
def WorkspaceServer.get_file_source (w : WorkspaceServer) (path : Path) :
    DocumentFileSource :=
  ((((docGet w.documents path).map (fun d => d.file_source_index)).bind
    w.get_source).getD (DocumentFileSource.from_path path))

/-- `WorkspaceServer::build_capability_error`. -/
def WorkspaceServer.build_capability_error (w : WorkspaceServer) (path : Path) :
    WorkspaceError :=
  let file_source := w.get_file_source path
  let language := (DocumentFileSource.from_path path).or file_source
  .source_file_not_supported language path (pathExtension path)

/-- `WorkspaceServer::get_manifest`: always succeeds with the registry's
manifest, if any. -/
def WorkspaceServer.get_manifest (w : WorkspaceServer) (project_key : ProjectKey) :
    Except WorkspaceError (Option PackageJson) :=
  .ok (w.settings.get_manifest project_key)

/-- `WorkspaceServer::parse`: resolve the source by index, require the
parse capability, and run the external parser. -/
def WorkspaceServer.parse (w : WorkspaceServer) (path : Path)
    (content : String) (file_source_index : Nat) :
    Except WorkspaceError ParseResult :=
  match w.get_source file_source_index with
  | none => .error .not_found
  | some file_source =>
    if w.features.parser_cap path file_source then
      .ok (w.features.parse_fn path file_source content)
    else
      .error (w.build_capability_error path)

/-- `FileContent`: caller-supplied content or server-side file read. -/
inductive FileContent
  | fromClient (content : String)
  | fromServer

/-- `OpenFileParams`. -/
structure OpenFileParams where
  project_key : ProjectKey
  path : Path
  content : FileContent
  version : Int
  document_file_source : Option DocumentFileSource
  persist_node_cache : Bool

/-- Content materialization (§4.5 step 3): from the caller, or read from
the file system (an unreadable file surfaces an `io` error). -/
def WorkspaceServer.materialize (w : WorkspaceServer) (path : Path) :
    FileContent → Except WorkspaceError String
  | .fromClient content => .ok content
  | .fromServer =>
    match w.fs.read_file path with
    | some c => .ok c
    | none => .error .io_error

/-- The CommonJS downgrade of `open_file_internal` (§4.5 step 2): if the
resolved source is JavaScript, the manifest declares `type = "commonjs"`
and the source's extension is `js`, set the module kind to script. -/
def commonjs_downgrade (source : DocumentFileSource)
    (manifest : Option PackageJson) : DocumentFileSource :=
  match source, manifest with
  | .js js, some m =>
    if m.type == some PackageType.commonjs && js.file_extension == "js" then
      .js (js.set_module_kind .script)
    else
      .js js
  | s, _ => s

/-- The document-insertion block of `open_file_internal` (lines 342-404
of `server.rs`): read the prior entry and pre-merge scanner flag and
version into the new document, insert, and re-check the value returned
by the insert, issuing a follow-up `update` when it differs from the
entry seen by the first read (the concurrent-race recovery; sequentially
the re-check condition is always false). -/
def open_merge_insert (w : WorkspaceServer) (path : Path)
    (document0 : Document) : WorkspaceServer :=
  let document :=
    match docGet w.documents path with
    | some existing =>
      let d1 :=
        if existing.opened_by_scanner then
          { document0 with opened_by_scanner := true }
        else
          document0
      if existing.version > document0.version then
        { d1 with version := existing.version }
      else
        d1
    | none => document0
  let obs := document.opened_by_scanner
  let ver := document.version
  let r := docInsert w.documents path document
  let w := { w with documents := r.2 }
  match r.1 with
  | some existing =>
    if (existing.opened_by_scanner && !obs) || decide (existing.version > ver) then
      { w with documents := docUpdate w.documents path (fun d =>
          let d1 :=
            if existing.opened_by_scanner && !obs then
              { d with opened_by_scanner := true }
            else
              d
          if existing.version > ver then
            { d1 with version := ver }
          else
            d1) }
    else
      w
  | none => w

/-- `WorkspaceServer::open_file_internal`. Mirrors the source step by
step: resolve the source, CommonJS downgrade, materialize content,
intern the source, size-limit check (inserting the too-large marker
without any merge), parse, re-intern a refined source, persist the node
cache on request, then insert with the open-merge rule and the follow-up
re-check on the value returned by the insert (`open_merge_insert`). -/
def WorkspaceServer.open_file_internal (w : WorkspaceServer)
    (opened_by_scanner : Bool) (params : OpenFileParams) :
    WorkspaceServer × Except WorkspaceError Unit :=
  let source0 := params.document_file_source.getD
    (DocumentFileSource.from_path params.path)
  let manifest := w.settings.get_manifest params.project_key
  let source := commonjs_downgrade source0 manifest
  match w.materialize params.path params.content with
  | .error e => (w, .error e)
  | .ok content =>
    let is := w.insert_source source
    let index := is.1
    let w := is.2
    let size := content.utf8ByteSize
    let limit := w.settings.get_max_file_size params.project_key
    if size > limit then
      let r := docInsert w.documents params.path
        { content := content
          version := params.version
          file_source_index := index
          parse := .error { size := size, limit := limit }
          opened_by_scanner := opened_by_scanner }
      ({ w with documents := r.2 }, .ok ())
    else
      match w.parse params.path content index with
      | .error e => (w, .error e)
      | .ok parsed =>
        let is2 :=
          match parsed.language with
          | some language => w.insert_source language
          | none => (index, w)
        let index := is2.1
        let w := is2.2
        let w :=
          if params.persist_node_cache then
            { w with node_cache := ncInsert w.node_cache params.path }
          else
            w
        let document0 : Document :=
          { content := content
            version := params.version
            file_source_index := index
            parse := .ok parsed.any_parse
            opened_by_scanner := opened_by_scanner }
        (open_merge_insert w params.path document0, .ok ())

/-- `Workspace::open_file`: editor-initiated open. -/
def WorkspaceServer.open_file (w : WorkspaceServer) (params : OpenFileParams) :
    WorkspaceServer × Except WorkspaceError Unit :=
  w.open_file_internal false params

/-- `WorkspaceServer::open_file_by_scanner`: scanner-initiated open;
`opened_by_scanner` is forced true. -/
def WorkspaceServer.open_file_by_scanner (w : WorkspaceServer)
    (params : OpenFileParams) : WorkspaceServer × Except WorkspaceError Unit :=
  w.open_file_internal true params

/-- `WorkspaceServer::get_parse`: the stored parse, `not_found` when the
path holds no document, `file_ignored(path)` when it holds the too-large
marker. -/
def WorkspaceServer.get_parse (w : WorkspaceServer) (path : Path) :
    Except WorkspaceError AnyParse :=
  match docGet w.documents path with
  | none => .error .not_found
  | some document =>
    match document.parse with
    | .ok p => .ok p
    | .error _ => .error (.file_ignored path)

/-- `ConfigName::biome_json()`. -/
def biome_json : String := "biome.json"

/-- `ConfigName::biome_jsonc()`. -/
def biome_jsonc : String := "biome.jsonc"

/-- `WorkspaceServer::is_ignored_by_top_level_config`: the top-level
`files.include` / `files.ignore` / gitignore decision. -/
def WorkspaceServer.is_ignored_by_top_level_config (w : WorkspaceServer)
    (project_key : ProjectKey) (path : Path) : Bool :=
  match w.settings.get_files_settings project_key with
  | none => false
  | some files_settings =>
    let is_included := files_settings.included_files.is_empty
      || w.fs.is_dir path
      || files_settings.included_files.matches_path path
    !is_included
      || files_settings.ignored_files.matches_path path
      || (match files_settings.git_ignore with
          | some ignore =>
            if !(pathHasRoot path) || strStartsWith path ignore.root then
              ignore.matched_path_or_any_parents path (w.fs.is_dir path)
            else
              false
          | none => false)

/-- `WorkspaceServer::is_ignored`, transcribed exactly: the feature loop
accumulates with `ignored &= …` starting from `false`, and the config
file guard is the disjunction of the two inequalities, as written in the
source. -/
def WorkspaceServer.is_ignored (w : WorkspaceServer) (project_key : ProjectKey)
    (path : Path) (features : FeatureName) : Bool :=
  let file_name := fileName path
  let ignored_by_features :=
    features.foldl
      (fun ignored feature =>
        ignored && w.settings.is_ignored_by_feature_config project_key path feature)
      false
  (file_name != some biome_json || file_name != some biome_jsonc)
    && (w.is_ignored_by_top_level_config project_key path || ignored_by_features)

/-- `Workspace::is_path_ignored`. -/
def WorkspaceServer.is_path_ignored (w : WorkspaceServer)
    (project_key : ProjectKey) (path : Path) (features : FeatureName) :
    Except WorkspaceError Bool :=
  .ok (w.is_ignored project_key path features)

/-- `SetManifestForProjectParams`. -/
structure SetManifestForProjectParams where
  project_key : ProjectKey
  manifest_path : Path
  content : String
  version : Int

/-- `Workspace::set_manifest_for_project`: intern the JSON source, parse
the content, store the deserialized manifest in the project registry and
insert a synthetic document for the manifest path (plain insert, no
merge, `opened_by_scanner = false`). -/
def WorkspaceServer.set_manifest_for_project (w : WorkspaceServer)
    (params : SetManifestForProjectParams) :
    WorkspaceServer × Except WorkspaceError Unit :=
  let is := w.insert_source .json
  let index := is.1
  let w := is.2
  let parsed := w.features.parse_json_fn params.content
  let manifest := w.features.deserialize_manifest_fn params.content
  let w := { w with
    settings := w.settings.insert_manifest params.project_key manifest }
  let r := docInsert w.documents params.manifest_path
    { content := params.content
      version := params.version
      file_source_index := index
      parse := .ok parsed
      opened_by_scanner := false }
  ({ w with documents := r.2 }, .ok ())

/-- `ChangeFileParams`. -/
structure ChangeFileParams where
  project_key : ProjectKey
  path : Path
  content : String
  version : Int

/-- `Workspace::change_file`. The caller guarantees
`version > prior.version` (a `debug_assert` in the source, not enforced
at runtime). The node-cache entry is taken out before the parse and
reinserted after it only if it existed. -/
def WorkspaceServer.change_file (w : WorkspaceServer) (params : ChangeFileParams) :
    WorkspaceServer × Except WorkspaceError Unit :=
  match docGet w.documents params.path with
  | none => (w, .error .not_found)
  | some doc =>
    let index := doc.file_source_index
    let opened_by_scanner := doc.opened_by_scanner
    let persist_node_cache := ncContains w.node_cache params.path
    let w := { w with node_cache := ncRemove w.node_cache params.path }
    match w.parse params.path params.content index with
    | .error e => (w, .error e)
    | .ok parsed =>
      let document : Document :=
        { content := params.content
          version := params.version
          file_source_index := index
          parse := .ok parsed.any_parse
          opened_by_scanner := opened_by_scanner }
      let w :=
        if persist_node_cache then
          { w with node_cache := ncInsert w.node_cache params.path }
        else
          w
      let r := docInsert w.documents params.path document
      let w := { w with documents := r.2 }
      match r.1 with
      | some _ => (w, .ok ())
      | none => (w, .error .not_found)

/-- `Workspace::close_file`: remove the document only when it was not
opened by the scanner; always drop the node-cache entry; `not_found`
when no document exists. -/
def WorkspaceServer.close_file (w : WorkspaceServer) (path : Path) :
    WorkspaceServer × Except WorkspaceError Unit :=
  match docGet w.documents path with
  | none => (w, .error .not_found)
  | some document =>
    let w :=
      if !document.opened_by_scanner then
        { w with documents := docRemove w.documents path }
      else
        w
    ({ w with node_cache := ncRemove w.node_cache path }, .ok ())

/-- `Workspace::pull_diagnostics`: fetch the parse first (so a too-large
document fails with `file_ignored` before anything else), then delegate
to the lint capability or fall back to the parser diagnostics. -/
def WorkspaceServer.pull_diagnostics (w : WorkspaceServer)
    (project_key : ProjectKey) (path : Path) :
    Except WorkspaceError (List Diag × Nat × Nat) :=
  match w.get_parse path with
  | .error e => .error e
  | .ok parse =>
    let _manifest := w.settings.get_manifest project_key
    if w.features.lint_cap path (w.get_file_source path) then
      .ok (w.features.lint_fn path parse)
    else
      let parse_diagnostics := parse.diagnostics
      let errors := (parse_diagnostics.filter (fun d => d.is_error)).length
      .ok (parse_diagnostics, errors, 0)

/-- `Workspace::format_file`: capability, then settings, then parse
(where a too-large document fails with `file_ignored`), then the
`format_with_errors` refusal, then the formatter. -/
def WorkspaceServer.format_file (w : WorkspaceServer) (project_key : ProjectKey)
    (path : Path) : Except WorkspaceError String :=
  if w.features.format_cap path (w.get_file_source path) then
    let settings := w.settings.get_settings project_key
    match w.get_parse path with
    | .error e => .error e
    | .ok parse =>
      match settings with
      | some s =>
        if !s.format_with_errors && parse.has_errors then
          .error .format_with_errors_disabled
        else
          w.features.format_fn path (w.get_file_source path) parse
      | none => w.features.format_fn path (w.get_file_source path) parse
  else
    .error (w.build_capability_error path)

/-- `Workspace::get_syntax_tree`: capability then parse. -/
def WorkspaceServer.get_syntax_tree (w : WorkspaceServer) (path : Path) :
    Except WorkspaceError String :=
  if w.features.debug_syntax_tree_cap path (w.get_file_source path) then
    match w.get_parse path with
    | .error e => .error e
    | .ok parse => .ok (w.features.debug_syntax_tree_fn path parse)
  else
    .error (w.build_capability_error path)

/-- `make_search_pattern_id`: `"p" + counter`, then increment; the
counter is the process-global `AtomicUsize` starting at 1. -/
def make_search_pattern_id (counter : Nat) : PatternId × Nat :=
  ("p" ++ Nat.repr counter, counter + 1)

/-- `Workspace::parse_pattern`: compile the query (an error here does not
consume an id), generate a fresh id and store the compiled query. -/
def WorkspaceServer.parse_pattern (w : WorkspaceServer) (pattern : String) :
    WorkspaceServer × Except WorkspaceError PatternId :=
  match w.features.compile_pattern_fn pattern with
  | none => (w, .error .pattern_compile_error)
  | some query =>
    let r := make_search_pattern_id w.pattern_counter
    ({ w with
        pattern_counter := r.2
        patterns := patInsert w.patterns r.1 query },
      .ok r.1)

/-- `Workspace::drop_pattern`: remove the pattern; always succeeds. -/
def WorkspaceServer.drop_pattern (w : WorkspaceServer) (pattern : PatternId) :
    WorkspaceServer × Except WorkspaceError Unit :=
  ({ w with patterns := patRemove w.patterns pattern }, .ok ())

/-- `Workspace::search_pattern`: pattern lookup, capability, then parse. -/
def WorkspaceServer.search_pattern (w : WorkspaceServer)
    (project_key : ProjectKey) (path : Path) (pattern : PatternId) :
    Except WorkspaceError (List String) :=
  match patGet w.patterns pattern with
  | none => .error .invalid_pattern
  | some query =>
    if w.features.search_cap path (w.get_file_source path) then
      let _settings := w.settings.get_settings project_key
      match w.get_parse path with
      | .error e => .error e
      | .ok parse => w.features.search_fn path (w.get_file_source path) parse query
    else
      .error (w.build_capability_error path)

/-! ### Helper definitions used by the proofs -/

/-- The sequential result of the open-merge rule on a prior document. -/
def mergedDocument (prior : Option Document) (document0 : Document) : Document :=
  match prior with
  | some existing =>
    let d1 :=
      if existing.opened_by_scanner then
        { document0 with opened_by_scanner := true }
      else
        document0
    if existing.version > document0.version then
      { d1 with version := existing.version }
    else
      d1
  | none => document0

/-- Left inverse of `Nat.digitChar` on digits. -/
def digitVal (c : Char) : Nat :=
  if c = '0' then 0 else if c = '1' then 1 else if c = '2' then 2
  else if c = '3' then 3 else if c = '4' then 4 else if c = '5' then 5
  else if c = '6' then 6 else if c = '7' then 7 else if c = '8' then 8 else 9

/-- Reads a decimal digit string back into the number it denotes. -/
def ofDigits (l : List Char) : Nat :=
  l.foldl (fun a c => a * 10 + digitVal c) 0

/-- A pattern-registry operation: `parse_pattern` on a query string, or
`drop_pattern` on an id. -/
inductive PatternOp
  | parse (query : String)
  | drop (id : PatternId)

/-- Runs a sequence of pattern operations, collecting the ids returned
by the successful `parse_pattern` calls, in order. -/
def runPatternOps : WorkspaceServer → List PatternOp → WorkspaceServer × List PatternId
  | w, [] => (w, [])
  | w, .parse q :: rest =>
    let r := w.parse_pattern q
    match r.2 with
    | .ok id =>
      let t := runPatternOps r.1 rest
      (t.1, id :: t.2)
    | .error _ => runPatternOps r.1 rest
  | w, .drop id :: rest => runPatternOps (w.drop_pattern id).1 rest

/-! ### Concrete fixtures

Closed instantiations of the external collaborators, used by witnesses
and counterexamples. -/

namespace Fix

/-- A capability table in which every capability is present and the
external parser echoes the content without refining the language. -/
def exFeatures : Features :=
  { parser_cap := fun _ _ => true
    parse_fn := fun _ _ content =>
      { any_parse := { text := content, has_errors := false, diagnostics := [] }
        language := none }
    lint_cap := fun _ _ => false
    lint_fn := fun _ _ => ([], 0, 0)
    format_cap := fun _ _ => true
    format_fn := fun _ _ p => .ok p.text
    debug_syntax_tree_cap := fun _ _ => true
    debug_syntax_tree_fn := fun _ _ => ""
    search_cap := fun _ _ => true
    search_fn := fun _ _ _ _ => .ok []
    parse_json_fn := fun c => { text := c, has_errors := false, diagnostics := [] }
    deserialize_manifest_fn := fun _ => none
    compile_pattern_fn := fun q => some q }

/-- An empty file system. -/
def exFs : FileSystemModel := { read_file := fun _ => none, is_dir := fun _ => false }

/-- A project with a tiny (2-byte) size limit. -/
def exProject : ProjectData :=
  { project_path := "/r"
    max_file_size := 2
    manifest := none
    files_settings := none
    format_with_errors := true
    feature_ignored := fun _ _ => false }

/-- A scanner-opened document. -/
def priorDoc : Document :=
  { content := "x"
    version := 1
    file_source_index := 0
    parse := .ok { text := "x", has_errors := false, diagnostics := [] }
    opened_by_scanner := true }

/-- Server with a scanner-opened document at `/r/a.js` and limit 2. -/
def exServer1 : WorkspaceServer :=
  { (WorkspaceServer.new exFeatures exFs) with
      settings := fun k => if k == 0 then some exProject else none
      documents := fun p => if p == "/r/a.js" then some priorDoc else none
      file_sources := [.js ⟨"js", .module⟩] }

/-- An oversized editor open of `/r/a.js` (4 bytes against limit 2). -/
def exParamsBig : OpenFileParams :=
  { project_key := 0
    path := "/r/a.js"
    content := .fromClient "aaaa"
    version := 2
    document_file_source := none
    persist_node_cache := false }

/-- Server with a scanner-opened document at `/r/a.js` and limit 100. -/
def exServer2 : WorkspaceServer :=
  { exServer1 with
      settings := fun k => if k == 0 then some { exProject with max_file_size := 100 } else none }

/-- A within-limit editor open of `/r/a.js` at version 0. -/
def exParams2 : OpenFileParams :=
  { project_key := 0
    path := "/r/a.js"
    content := .fromClient "yy"
    version := 0
    document_file_source := none
    persist_node_cache := false }

/-- Like `exServer2` but the document is not scanner-opened. -/
def exServer2c : WorkspaceServer :=
  { exServer2 with
      documents := fun p =>
        if p == "/r/a.js" then some { priorDoc with opened_by_scanner := false } else none }

/-- Server whose project ignores every path for every feature. -/
def exServer3 : WorkspaceServer :=
  { (WorkspaceServer.new exFeatures exFs) with
      settings := fun k =>
        if k == 0 then some { exProject with feature_ignored := fun _ _ => true } else none }

/-- Server whose project's top-level `files.ignore` matches
`/r/biome.json`. -/
def exServer4 : WorkspaceServer :=
  { (WorkspaceServer.new exFeatures exFs) with
      settings := fun k =>
        if k == 0 then
          some { exProject with
            files_settings := some
              { included_files := ⟨[]⟩
                ignored_files := ⟨[fun p => p == "/r/biome.json"]⟩
                git_ignore := none } }
        else none }

/-- Like `exServer1` (limit 2) with a registered search pattern `p1`. -/
def exServer5 : WorkspaceServer :=
  { exServer1 with patterns := patInsert patEmpty "p1" "query" }

/-- Server whose project declares a CommonJS manifest and limit 100. -/
def exServerCj : WorkspaceServer :=
  { (WorkspaceServer.new exFeatures exFs) with
      settings := fun k =>
        if k == 0 then
          some { exProject with
            max_file_size := 100
            manifest := some { type := some .commonjs } }
        else none }

/-- A within-limit editor open of `/r/a.js` under the CommonJS project. -/
def exParamsCjJs : OpenFileParams :=
  { project_key := 0
    path := "/r/a.js"
    content := .fromClient "zz"
    version := 1
    document_file_source := none
    persist_node_cache := false }

/-- A within-limit editor open of `/r/b.mjs` under the CommonJS project. -/
def exParamsCjMjs : OpenFileParams :=
  { project_key := 0
    path := "/r/b.mjs"
    content := .fromClient "zz"
    version := 1
    document_file_source := none
    persist_node_cache := false }

/-- A `change_file` of `/r/a.js` to version 2. -/
def exParamsChange : ChangeFileParams :=
  { project_key := 0
    path := "/r/a.js"
    content := "let x=2"
    version := 2 }

/-- A `set_manifest_for_project` call targeting `/r/package.json`. -/
def exParamsManifest : SetManifestForProjectParams :=
  { project_key := 0
    manifest_path := "/r/package.json"
    content := "mf"
    version := 0 }

end Fix

/-! ### Infrastructure lemmas -/

@[simp]
theorem docInsert_fst (m : DocMap) (p : Path) (d : Document) :
    (docInsert m p d).1 = docGet m p := rfl

@[simp]
theorem docGet_docInsert_self (m : DocMap) (p : Path) (d : Document) :
    docGet (docInsert m p d).2 p = some d := by
  simp [docGet, docInsert]

theorem docGet_docInsert_other (m : DocMap) (p q : Path) (d : Document)
    (h : q ≠ p) : docGet (docInsert m p d).2 q = docGet m q := by
  simp [docGet, docInsert, h]

@[simp]
theorem docGet_docRemove_self (m : DocMap) (p : Path) :
    docGet (docRemove m p) p = none := by
  simp [docGet, docRemove]

@[simp]
theorem docGet_docUpdate_self (m : DocMap) (p : Path) (f : Document → Document) :
    docGet (docUpdate m p f) p = (docGet m p).map f := by
  simp [docGet, docUpdate]

theorem listPosition_some {p : α → Bool} {l : List α} {i : Nat}
    (h : listPosition p l = some i) :
    ∃ hi : i < l.length, p (l.get ⟨i, hi⟩) = true := by
  induction l generalizing i with
  | nil => simp [listPosition] at h
  | cons x xs ih =>
    simp only [listPosition] at h
    by_cases hx : p x
    · simp [hx] at h
      subst h
      exact ⟨by simp, hx⟩
    · simp [hx] at h
      obtain ⟨j, hj, rfl⟩ := h
      obtain ⟨hlt, hp⟩ := ih hj
      exact ⟨by simpa using hlt, hp⟩

@[simp]
theorem insert_source_documents (w : WorkspaceServer) (s : DocumentFileSource) :
    ((w.insert_source s).2).documents = w.documents := by
  unfold WorkspaceServer.insert_source
  split <;> rfl

@[simp]
theorem insert_source_settings (w : WorkspaceServer) (s : DocumentFileSource) :
    ((w.insert_source s).2).settings = w.settings := by
  unfold WorkspaceServer.insert_source
  split <;> rfl

@[simp]
theorem insert_source_features (w : WorkspaceServer) (s : DocumentFileSource) :
    ((w.insert_source s).2).features = w.features := by
  unfold WorkspaceServer.insert_source
  split <;> rfl

@[simp]
theorem insert_source_node_cache (w : WorkspaceServer) (s : DocumentFileSource) :
    ((w.insert_source s).2).node_cache = w.node_cache := by
  unfold WorkspaceServer.insert_source
  split <;> rfl

@[simp]
theorem insert_source_fs (w : WorkspaceServer) (s : DocumentFileSource) :
    ((w.insert_source s).2).fs = w.fs := by
  unfold WorkspaceServer.insert_source
  split <;> rfl

@[simp]
theorem insert_source_patterns (w : WorkspaceServer) (s : DocumentFileSource) :
    ((w.insert_source s).2).patterns = w.patterns := by
  unfold WorkspaceServer.insert_source
  split <;> rfl

@[simp]
theorem insert_source_pattern_counter (w : WorkspaceServer) (s : DocumentFileSource) :
    ((w.insert_source s).2).pattern_counter = w.pattern_counter := by
  unfold WorkspaceServer.insert_source
  split <;> rfl

/-- The index returned by `insert_source` resolves to the inserted
source (P4-adjacent fact used throughout). -/
theorem insert_source_get_source (w : WorkspaceServer) (s : DocumentFileSource) :
    ((w.insert_source s).2).get_source (w.insert_source s).1 = some s := by
  unfold WorkspaceServer.insert_source
  cases h : listPosition (fun t => t == s) w.file_sources with
  | some i =>
    obtain ⟨hi, hp⟩ := listPosition_some h
    simp only [WorkspaceServer.get_source]
    rw [dif_pos hi]
    simpa using hp
  | none =>
    simp only [WorkspaceServer.get_source, List.length_append, List.length_cons,
      List.length_nil]
    rw [dif_pos (by omega)]
    simp

/-- `open_merge_insert` leaves every field but `documents` unchanged. -/
theorem open_merge_insert_file_sources (w : WorkspaceServer) (p : Path)
    (d0 : Document) :
    (open_merge_insert w p d0).file_sources = w.file_sources := by
  unfold open_merge_insert
  dsimp only
  repeat' split
  all_goals rfl

/-- Sequential characterization of `open_merge_insert`: the race-recovery
re-check never fires, and the stored document is the merged one. -/
theorem open_merge_insert_get (w : WorkspaceServer) (p : Path) (d0 : Document) :
    docGet (open_merge_insert w p d0).documents p =
      some (mergedDocument (docGet w.documents p) d0) := by
  unfold open_merge_insert mergedDocument
  cases h : docGet w.documents p with
  | none => simp [h]
  | some existing =>
    by_cases hobs : existing.opened_by_scanner
    · by_cases hver : existing.version > d0.version
      · simp [h, hobs, hver]
      · simp [h, hobs, hver]
    · by_cases hver : existing.version > d0.version
      · simp [h, hobs, hver]
      · simp [h, hobs, hver]

/-! ### Decimal representation: `Nat.repr` is injective

`make_search_pattern_id` renders the counter with `format!("p{counter}")`;
the following lemmas establish that distinct counters yield distinct id
strings. -/

theorem toDigitsCore_append (b : Nat) (fuel n : Nat) (ds : List Char) :
    Nat.toDigitsCore b fuel n ds = Nat.toDigitsCore b fuel n [] ++ ds := by
  induction fuel generalizing n ds with
  | zero => simp [Nat.toDigitsCore]
  | succ fuel ih =>
    simp only [Nat.toDigitsCore]
    by_cases h : n / b = 0
    · simp [h]
    · simp only [h, if_false]
      rw [ih (n / b) (Nat.digitChar (n % b) :: ds), ih (n / b) [Nat.digitChar (n % b)]]
      simp

theorem toDigitsCore_fuel (n : Nat) : ∀ fuel fuel' ds, n < fuel → n < fuel' →
    Nat.toDigitsCore 10 fuel n ds = Nat.toDigitsCore 10 fuel' n ds := by
  induction n using Nat.strong_induction_on with
  | _ n ih =>
    intro fuel fuel' ds hf hf'
    match fuel, fuel' with
    | f + 1, f' + 1 =>
      simp only [Nat.toDigitsCore]
      by_cases h : n / 10 = 0
      · simp [h]
      · simp only [h, if_false]
        have hlt : n / 10 < n := Nat.div_lt_self (by omega) (by omega)
        exact ih (n / 10) hlt f f' _ (by omega) (by omega)

theorem toDigits_decomp (n : Nat) :
    Nat.toDigits 10 n =
      if n < 10 then [Nat.digitChar n]
      else Nat.toDigits 10 (n / 10) ++ [Nat.digitChar (n % 10)] := by
  by_cases h : n < 10
  · simp only [h, if_true, Nat.toDigits, Nat.toDigitsCore]
    have h0 : n / 10 = 0 := Nat.div_eq_of_lt h
    have hm : n % 10 = n := Nat.mod_eq_of_lt h
    simp [h0, hm]
  · simp only [h, if_false, Nat.toDigits, Nat.toDigitsCore]
    have h0 : ¬ n / 10 = 0 := by
      intro hc
      omega
    simp only [h0, if_false]
    rw [toDigitsCore_append 10 n (n / 10) [Nat.digitChar (n % 10)]]
    congr 1
    have hlt : n / 10 < n := Nat.div_lt_self (by omega) (by omega)
    exact toDigitsCore_fuel (n / 10) n (n / 10 + 1) [] (by omega) (by omega)

theorem digitVal_digitChar (m : Nat) (h : m < 10) :
    digitVal (Nat.digitChar m) = m := by
  interval_cases m <;> rfl

theorem ofDigits_toDigits (n : Nat) : ofDigits (Nat.toDigits 10 n) = n := by
  induction n using Nat.strong_induction_on with
  | _ n ih =>
    rw [toDigits_decomp n]
    by_cases h : n < 10
    · simp [h, ofDigits, List.foldl, digitVal_digitChar n h]
    · have hlt : n / 10 < n := Nat.div_lt_self (by omega) (by omega)
      simp only [h, if_false, ofDigits, List.foldl_append, List.foldl_cons,
        List.foldl_nil]
      have := ih (n / 10) hlt
      simp only [ofDigits] at this
      rw [this, digitVal_digitChar (n % 10) (Nat.mod_lt n (by omega))]
      omega

theorem natRepr_injective : Function.Injective Nat.repr := by
  intro a b h
  have hd : Nat.toDigits 10 a = Nat.toDigits 10 b := by
    have := congrArg String.data h
    simpa [Nat.repr, List.asString] using this
  have := congrArg ofDigits hd
  rwa [ofDigits_toDigits, ofDigits_toDigits] at this

/-- Distinct counters yield distinct `p<n>` id strings. -/
theorem pattern_id_injective (a b : Nat) (h : "p" ++ Nat.repr a = "p" ++ Nat.repr b) :
    a = b := by
  apply natRepr_injective
  have := congrArg String.data h
  simp only [String.data_append] at this
  apply String.ext
  exact List.append_cancel_left this

/-! ### Pattern-operation traces (for pattern-id generation) -/

/-- Invariant of pattern traces: the returned ids are `p<n>` for a
strictly increasing run of counters drawn from the interval between the
start and end values of the process-global counter. -/
theorem runPatternOps_spec (ops : List PatternOp) (w : WorkspaceServer) :
    ∃ ns : List Nat,
      (runPatternOps w ops).2 = ns.map (fun n => "p" ++ Nat.repr n) ∧
      List.Chain' (· < ·) ns ∧
      (∀ n ∈ ns, w.pattern_counter ≤ n ∧ n < (runPatternOps w ops).1.pattern_counter) ∧
      w.pattern_counter ≤ (runPatternOps w ops).1.pattern_counter := by
  induction ops generalizing w with
  | nil => exact ⟨[], by simp [runPatternOps]⟩
  | cons op rest ih =>
    cases op with
    | drop id =>
      obtain ⟨ns, h1, h2, h3, h4⟩ := ih (w.drop_pattern id).1
      exact ⟨ns, by simpa [runPatternOps, WorkspaceServer.drop_pattern] using
        ⟨h1, h2, h3, h4⟩⟩
    | parse q =>
      simp only [runPatternOps, WorkspaceServer.parse_pattern]
      cases hc : w.features.compile_pattern_fn q with
      | none =>
        obtain ⟨ns, h1, h2, h3, h4⟩ := ih w
        exact ⟨ns, by simpa [runPatternOps] using ⟨h1, h2, h3, h4⟩⟩
      | some query =>
        set w' : WorkspaceServer :=
          { w with
              pattern_counter := w.pattern_counter + 1
              patterns := patInsert w.patterns ("p" ++ Nat.repr w.pattern_counter) query }
          with hw'
        obtain ⟨ns, h1, h2, h3, h4⟩ := ih w'
        refine ⟨w.pattern_counter :: ns, ?_, ?_, ?_, ?_⟩
        · simp only [make_search_pattern_id, List.map_cons]
          rw [h1]
        · cases hns : ns with
          | nil => simp
          | cons m ms =>
            rw [hns] at h2 h3
            refine List.Chain'.cons ?_ h2
            have := h3 m (by simp)
            have : w'.pattern_counter ≤ m := this.1
            simp only [hw'] at this
            omega
        · intro n hn
          rcases List.mem_cons.mp hn with rfl | hn'
          · have := h4
            simp only [hw'] at this
            constructor
            · exact Nat.le_refl _
            · simp only [make_search_pattern_id]
              omega
          · have := h3 n hn'
            simp only [hw'] at this
            simp only [make_search_pattern_id]
            omega
        · have := h4
          simp only [hw'] at this
          simp only [make_search_pattern_id]
          omega

/-! ### The within-limit open path -/

theorem get_source_eq (w : WorkspaceServer) (i : Nat) :
    w.get_source i = w.file_sources[i]? := by
  unfold WorkspaceServer.get_source
  split
  · rw [List.getElem?_eq_getElem]
    rfl
  · rw [List.getElem?_eq_none]
    omega

theorem get_source_congr (w v : WorkspaceServer) (h : w.file_sources = v.file_sources)
    (i : Nat) : w.get_source i = v.get_source i := by
  rw [get_source_eq, get_source_eq, h]

theorem mergedDocument_opened_by_scanner (e d0 : Document) :
    (mergedDocument (some e) d0).opened_by_scanner =
      (e.opened_by_scanner || d0.opened_by_scanner) := by
  unfold mergedDocument
  by_cases hobs : e.opened_by_scanner <;> by_cases hver : e.version > d0.version <;>
    simp [hobs, hver]

theorem mergedDocument_version (e d0 : Document) :
    (mergedDocument (some e) d0).version = max e.version d0.version := by
  unfold mergedDocument
  by_cases hobs : e.opened_by_scanner <;> by_cases hver : e.version > d0.version <;>
    simp [hobs, hver] <;> omega

theorem mergedDocument_content (e d0 : Document) :
    (mergedDocument (some e) d0).content = d0.content := by
  unfold mergedDocument
  by_cases hobs : e.opened_by_scanner <;> by_cases hver : e.version > d0.version <;>
    simp [hobs, hver]

theorem mergedDocument_file_source_index (e d0 : Document) :
    (mergedDocument (some e) d0).file_source_index = d0.file_source_index := by
  unfold mergedDocument
  by_cases hobs : e.opened_by_scanner <;> by_cases hver : e.version > d0.version <;>
    simp [hobs, hver]

theorem mergedDocument_parse (e d0 : Document) :
    (mergedDocument (some e) d0).parse = d0.parse := by
  unfold mergedDocument
  by_cases hobs : e.opened_by_scanner <;> by_cases hver : e.version > d0.version <;>
    simp [hobs, hver]

theorem open_file_within_limit (w : WorkspaceServer) (obs : Bool)
    (params : OpenFileParams) (content : String)
    (hc : params.content = .fromClient content)
    (hsize : content.utf8ByteSize ≤ w.settings.get_max_file_size params.project_key)
    (hcap : ∀ s, w.features.parser_cap params.path s = true) :
    (w.open_file_internal obs params).2 = .ok () ∧
    ∃ d0 : Document,
      d0.version = params.version ∧
      d0.opened_by_scanner = obs ∧
      d0.content = content ∧
      d0.parse = .ok (w.features.parse_fn params.path
        (commonjs_downgrade
          (params.document_file_source.getD (DocumentFileSource.from_path params.path))
          (w.settings.get_manifest params.project_key)) content).any_parse ∧
      docGet (w.open_file_internal obs params).1.documents params.path =
        some (mergedDocument (docGet w.documents params.path) d0) ∧
      (w.open_file_internal obs params).1.get_source d0.file_source_index =
        some (((w.features.parse_fn params.path
          (commonjs_downgrade
            (params.document_file_source.getD (DocumentFileSource.from_path params.path))
            (w.settings.get_manifest params.project_key)) content).language).getD
          (commonjs_downgrade
            (params.document_file_source.getD (DocumentFileSource.from_path params.path))
            (w.settings.get_manifest params.project_key))) := by
  have hmat : w.materialize params.path params.content = .ok content := by
    rw [hc]
    rfl
  unfold WorkspaceServer.open_file_internal
  rw [hmat]
  dsimp only
  rw [insert_source_settings]
  rw [if_neg (by omega)]
  simp only [WorkspaceServer.parse, insert_source_get_source, insert_source_features,
    hcap, if_true]
  set source := commonjs_downgrade
    (params.document_file_source.getD (DocumentFileSource.from_path params.path))
    (w.settings.get_manifest params.project_key) with hsource
  cases hL : (w.features.parse_fn params.path source content).language with
  | some language =>
    cases hp : params.persist_node_cache with
    | true =>
      refine ⟨trivial, ⟨⟨content, params.version,
        ((w.insert_source source).2.insert_source language).1,
        .ok (w.features.parse_fn params.path source content).any_parse,
        obs⟩, rfl, rfl, rfl, rfl, ?_, ?_⟩⟩
      · rw [open_merge_insert_get]
        simp [insert_source_documents]
      · rw [get_source_eq, open_merge_insert_file_sources, if_pos rfl]
        dsimp only
        rw [← get_source_eq, insert_source_get_source]
        simp
    | false =>
      refine ⟨trivial, ⟨⟨content, params.version,
        ((w.insert_source source).2.insert_source language).1,
        .ok (w.features.parse_fn params.path source content).any_parse,
        obs⟩, rfl, rfl, rfl, rfl, ?_, ?_⟩⟩
      · rw [open_merge_insert_get]
        simp [insert_source_documents]
      · rw [get_source_eq, open_merge_insert_file_sources, if_neg (by simp)]
        dsimp only
        rw [← get_source_eq, insert_source_get_source]
        simp
  | none =>
    cases hp : params.persist_node_cache with
    | true =>
      refine ⟨trivial, ⟨⟨content, params.version,
        (w.insert_source source).1,
        .ok (w.features.parse_fn params.path source content).any_parse,
        obs⟩, rfl, rfl, rfl, rfl, ?_, ?_⟩⟩
      · rw [open_merge_insert_get]
        simp [insert_source_documents]
      · rw [get_source_eq, open_merge_insert_file_sources, if_pos rfl]
        dsimp only
        rw [← get_source_eq, insert_source_get_source]
        simp
    | false =>
      refine ⟨trivial, ⟨⟨content, params.version,
        (w.insert_source source).1,
        .ok (w.features.parse_fn params.path source content).any_parse,
        obs⟩, rfl, rfl, rfl, rfl, ?_, ?_⟩⟩
      · rw [open_merge_insert_get]
        simp [insert_source_documents]
      · rw [get_source_eq, open_merge_insert_file_sources, if_neg (by simp)]
        dsimp only
        rw [← get_source_eq, insert_source_get_source]
        simp

/-! ### C2: the open-merge rule -/

/-- **C2.** For every `open_file`/`open_file_by_scanner`
(`open_file_internal` with the respective scanner flag) on a path that
already holds a document, with client content within the size limit so
the parse path is taken, the call succeeds and the stored document has
`opened_by_scanner = prior.opened_by_scanner ∨ new.opened_by_scanner`
and `version = max(prior.version, new.version)`; in particular the
version never decreases and a true scanner flag is never cleared. -/
theorem c2_open_merge_rule (w : WorkspaceServer) (obs : Bool)
    (params : OpenFileParams) (prior : Document) (content : String)
    (hdoc : docGet w.documents params.path = some prior)
    (hc : params.content = .fromClient content)
    (hsize : content.utf8ByteSize ≤ w.settings.get_max_file_size params.project_key)
    (hcap : ∀ s, w.features.parser_cap params.path s = true) :
    (w.open_file_internal obs params).2 = .ok () ∧
    ∃ d, docGet (w.open_file_internal obs params).1.documents params.path = some d ∧
      d.opened_by_scanner = (prior.opened_by_scanner || obs) ∧
      d.version = max prior.version params.version ∧
      prior.version ≤ d.version ∧
      (prior.opened_by_scanner = true → d.opened_by_scanner = true) := by
  obtain ⟨hok, d0, hv, hobs, hcont, hparse, hget, hsrc⟩ :=
    open_file_within_limit w obs params content hc hsize hcap
  rw [hdoc] at hget
  refine ⟨hok, mergedDocument (some prior) d0, hget, ?_, ?_, ?_, ?_⟩
  · rw [mergedDocument_opened_by_scanner, hobs]
  · rw [mergedDocument_version, hv]
  · rw [mergedDocument_version, hv]
    exact le_max_left _ _
  · intro h
    rw [mergedDocument_opened_by_scanner, h]
    simp

/-- Witness for C2: an editor re-open of the scanner-opened `/r/a.js` at
a lower version keeps the scanner flag and the higher version. -/
theorem c2_open_merge_rule_witness :
    docGet Fix.exServer2.documents "/r/a.js" = some Fix.priorDoc ∧
    (Fix.exServer2.open_file_internal false Fix.exParams2).2 = .ok () ∧
    ∃ d, docGet (Fix.exServer2.open_file_internal false Fix.exParams2).1.documents
        "/r/a.js" = some d ∧
      d.opened_by_scanner = (Fix.priorDoc.opened_by_scanner || false) ∧
      d.version = max Fix.priorDoc.version 0 := by
  have h := c2_open_merge_rule Fix.exServer2 false Fix.exParams2 Fix.priorDoc "yy"
    rfl rfl (by decide) (fun _ => rfl)
  obtain ⟨hok, d, hget, hobs, hver, _, _⟩ := h
  exact ⟨rfl, hok, d, hget, hobs, hver⟩

/-! ### C1: scanner stickiness -/

/-- Helper: inserting through the open-merge rule over a scanner-opened
prior document stores a scanner-opened document. -/
theorem open_merge_insert_sticky (W : WorkspaceServer) (p : Path) (d0 prior : Document)
    (hd : docGet W.documents p = some prior) (hs : prior.opened_by_scanner = true) :
    ∃ d, docGet (open_merge_insert W p d0).documents p = some d ∧
      d.opened_by_scanner = true := by
  refine ⟨_, open_merge_insert_get W p d0, ?_⟩
  rw [hd, mergedDocument_opened_by_scanner, hs]
  simp

/-- Helper: the open variants whose materialized content is within the
size limit keep an existing scanner-opened document scanner-opened. -/
theorem open_file_internal_scanner_sticky (w : WorkspaceServer) (obs : Bool)
    (params : OpenFileParams) (prior : Document)
    (hdoc : docGet w.documents params.path = some prior)
    (hs : prior.opened_by_scanner = true)
    (hlim : ∀ c, w.materialize params.path params.content = .ok c →
      c.utf8ByteSize ≤ w.settings.get_max_file_size params.project_key) :
    ∃ d, docGet (w.open_file_internal obs params).1.documents params.path = some d ∧
      d.opened_by_scanner = true := by
  unfold WorkspaceServer.open_file_internal
  cases hm : w.materialize params.path params.content with
  | error e => exact ⟨prior, by simpa using hdoc, hs⟩
  | ok content =>
    dsimp only
    rw [insert_source_settings]
    have hsz : ¬ (content.utf8ByteSize > w.settings.get_max_file_size params.project_key) := by
      have := hlim content hm
      omega
    rw [if_neg hsz]
    cases hp : WorkspaceServer.parse
        (w.insert_source (commonjs_downgrade
          (params.document_file_source.getD (DocumentFileSource.from_path params.path))
          (w.settings.get_manifest params.project_key))).2
        params.path content
        (w.insert_source (commonjs_downgrade
          (params.document_file_source.getD (DocumentFileSource.from_path params.path))
          (w.settings.get_manifest params.project_key))).1 with
    | error e =>
      refine ⟨prior, ?_, hs⟩
      simpa [insert_source_documents] using hdoc
    | ok parsed =>
      dsimp only
      cases hL : parsed.language with
      | some language =>
        cases hpc : params.persist_node_cache with
        | true =>
          exact open_merge_insert_sticky _ params.path _ prior
            (by simpa [insert_source_documents] using hdoc) hs
        | false =>
          exact open_merge_insert_sticky _ params.path _ prior
            (by simpa [insert_source_documents] using hdoc) hs
      | none =>
        cases hpc : params.persist_node_cache with
        | true =>
          exact open_merge_insert_sticky _ params.path _ prior
            (by simpa [insert_source_documents] using hdoc) hs
        | false =>
          exact open_merge_insert_sticky _ params.path _ prior
            (by simpa [insert_source_documents] using hdoc) hs


/-- Helper: `change_file` preserves the scanner flag of the stored
document it replaces. -/
theorem change_file_scanner_sticky (w : WorkspaceServer) (params : ChangeFileParams)
    (prior : Document)
    (hdoc : docGet w.documents params.path = some prior)
    (hs : prior.opened_by_scanner = true) :
    ∃ d, docGet (w.change_file params).1.documents params.path = some d ∧
      d.opened_by_scanner = true := by
  unfold WorkspaceServer.change_file
  rw [hdoc]
  dsimp only
  cases hp : WorkspaceServer.parse
      ({ w with node_cache := ncRemove w.node_cache params.path } : WorkspaceServer)
      params.path params.content prior.file_source_index with
  | error e => exact ⟨prior, hdoc, hs⟩
  | ok parsed =>
    dsimp only
    cases hpc : ncContains w.node_cache params.path with
    | true =>
      rw [if_pos rfl]
      have hfst : docGet ({ w with node_cache := ncInsert (ncRemove w.node_cache params.path) params.path } : WorkspaceServer).documents params.path = some prior := hdoc
      simp only [docInsert_fst, hfst]
      refine ⟨_, docGet_docInsert_self _ _ _, ?_⟩
      exact hs
    | false =>
      rw [if_neg (by simp)]
      have hfst : docGet ({ w with node_cache := ncRemove w.node_cache params.path } : WorkspaceServer).documents params.path = some prior := hdoc
      simp only [docInsert_fst, hfst]
      refine ⟨_, docGet_docInsert_self _ _ _, ?_⟩
      exact hs

/-- **C1 (amended).** Once the stored document at `p` is scanner-opened:
every `open_file`/`open_file_by_scanner` whose materialized content is
within the project size limit, and every `change_file`, leaves a
document at `p` with `opened_by_scanner = true` (whether the call
succeeds or fails), and `close_file` retains the document unchanged.
(The original claim also covered opens whose content exceeds the size
limit; those take the marker-insert path, which overwrites the scanner
flag with the caller's flag — see the counterexample.) -/
theorem c1_scanner_stickiness (w : WorkspaceServer) (p : Path) (prior : Document)
    (hdoc : docGet w.documents p = some prior)
    (hs : prior.opened_by_scanner = true) :
    (∀ (obs : Bool) (params : OpenFileParams), params.path = p →
      (∀ c, w.materialize p params.content = .ok c →
        c.utf8ByteSize ≤ w.settings.get_max_file_size params.project_key) →
      ∃ d, docGet (w.open_file_internal obs params).1.documents p = some d ∧
        d.opened_by_scanner = true) ∧
    (∀ params : ChangeFileParams, params.path = p →
      ∃ d, docGet (w.change_file params).1.documents p = some d ∧
        d.opened_by_scanner = true) ∧
    docGet (w.close_file p).1.documents p = some prior := by
  refine ⟨?_, ?_, ?_⟩
  · intro obs params hpath hlim
    subst hpath
    exact open_file_internal_scanner_sticky w obs params prior hdoc hs hlim
  · intro params hpath
    subst hpath
    exact change_file_scanner_sticky w params prior hdoc hs
  · unfold WorkspaceServer.close_file
    rw [hdoc]
    dsimp only
    rw [hs]
    exact hdoc

/-- Counterexample to C1 as stated: `/r/a.js` is scanner-opened, and an
editor `open_file` whose content (4 bytes) exceeds the project limit (2)
succeeds and leaves the document with `opened_by_scanner = false`. -/
theorem c1_counterexample :
    docGet Fix.exServer1.documents "/r/a.js" = some Fix.priorDoc ∧
    Fix.priorDoc.opened_by_scanner = true ∧
    (Fix.exServer1.open_file Fix.exParamsBig).2 = .ok () ∧
    (docGet (Fix.exServer1.open_file Fix.exParamsBig).1.documents "/r/a.js").map
      (fun d => d.opened_by_scanner) = some false := by
  exact ⟨rfl, rfl, rfl, rfl⟩

/-- Witness for the amended C1: on the scanner-opened `/r/a.js`, a
within-limit editor open, a `change_file`, and a `close_file` each leave
a scanner-opened document in place. -/
theorem c1_scanner_stickiness_witness :
    (∃ d, docGet (Fix.exServer2.open_file_internal false Fix.exParams2).1.documents
        "/r/a.js" = some d ∧ d.opened_by_scanner = true) ∧
    (∃ d, docGet (Fix.exServer2.change_file Fix.exParamsChange).1.documents
        "/r/a.js" = some d ∧ d.opened_by_scanner = true) ∧
    docGet (Fix.exServer2.close_file "/r/a.js").1.documents "/r/a.js" =
      some Fix.priorDoc := by
  have h := c1_scanner_stickiness Fix.exServer2 "/r/a.js" Fix.priorDoc rfl rfl
  exact ⟨h.1 false Fix.exParams2 rfl (fun c hc => by
      cases hc
      decide),
    h.2.1 Fix.exParamsChange rfl, h.2.2⟩

/-! ### C6: close respects the scanner -/

/-- **C6.** After `close_file(p)` the store still holds an entry at `p`
iff the prior document was scanner-opened (it is removed exactly when
the flag was false), and `close_file` on a path with no document fails
with `not_found`. -/
theorem c6_close_respects_scanner (w : WorkspaceServer) (p : Path) :
    (∀ prior, docGet w.documents p = some prior →
      (w.close_file p).2 = .ok () ∧
      docGet (w.close_file p).1.documents p =
        (if prior.opened_by_scanner then some prior else none)) ∧
    (docGet w.documents p = none → w.close_file p = (w, .error .not_found)) := by
  constructor
  · intro prior hdoc
    unfold WorkspaceServer.close_file
    rw [hdoc]
    dsimp only
    refine ⟨rfl, ?_⟩
    cases hobs : prior.opened_by_scanner with
    | true => simpa [hobs] using hdoc
    | false => simp [hobs]
  · intro hdoc
    unfold WorkspaceServer.close_file
    rw [hdoc]

/-- Witness for C6: closing the scanner-opened `/r/a.js` keeps it;
closing the editor-opened copy removes it; closing an absent path fails
with `not_found`. -/
theorem c6_close_respects_scanner_witness :
    ((Fix.exServer2.close_file "/r/a.js").2 = .ok () ∧
      docGet (Fix.exServer2.close_file "/r/a.js").1.documents "/r/a.js" =
        (if Fix.priorDoc.opened_by_scanner then some Fix.priorDoc else none)) ∧
    docGet (Fix.exServer2c.close_file "/r/a.js").1.documents "/r/a.js" =
      (if false then some { Fix.priorDoc with opened_by_scanner := false } else none) ∧
    Fix.exServer2.close_file "/r/missing" = (Fix.exServer2, .error .not_found) := by
  refine ⟨(c6_close_respects_scanner Fix.exServer2 "/r/a.js").1 Fix.priorDoc rfl, ?_, ?_⟩
  · exact ((c6_close_respects_scanner Fix.exServer2c "/r/a.js").1
      { Fix.priorDoc with opened_by_scanner := false } rfl).2
  · exact (c6_close_respects_scanner Fix.exServer2 "/r/missing").2 rfl

/-! ### C7: the change_file contract -/

/-- **C7.** `change_file` on a path with no stored document fails with
`not_found` and changes nothing; on a stored document, under the
caller's precondition `version > prior.version` (a `debug_assert` in
the source) and with the parse capability available for the document's
interned source, the call succeeds and stores the new content and
version with the same file-source index and the prior scanner flag. -/
theorem c7_change_file_contract (w : WorkspaceServer) (params : ChangeFileParams) :
    (docGet w.documents params.path = none →
      w.change_file params = (w, .error .not_found)) ∧
    (∀ prior src, docGet w.documents params.path = some prior →
      prior.version < params.version →
      w.get_source prior.file_source_index = some src →
      w.features.parser_cap params.path src = true →
      (w.change_file params).2 = .ok () ∧
      docGet (w.change_file params).1.documents params.path =
        some { content := params.content
               version := params.version
               file_source_index := prior.file_source_index
               parse := .ok (w.features.parse_fn params.path src params.content).any_parse
               opened_by_scanner := prior.opened_by_scanner }) := by
  constructor
  · intro hdoc
    unfold WorkspaceServer.change_file
    rw [hdoc]
  · intro prior src hdoc hver hidx hcap
    unfold WorkspaceServer.change_file
    rw [hdoc]
    dsimp only
    have hparse : WorkspaceServer.parse
        ({ w with node_cache := ncRemove w.node_cache params.path } : WorkspaceServer)
        params.path params.content prior.file_source_index =
        .ok (w.features.parse_fn params.path src params.content) := by
      unfold WorkspaceServer.parse
      have hidx2 : ({ w with node_cache := ncRemove w.node_cache params.path } :
          WorkspaceServer).get_source prior.file_source_index = some src := hidx
      rw [hidx2]
      dsimp only
      rw [hcap]
      simp
    rw [hparse]
    dsimp only
    cases hpc : ncContains w.node_cache params.path with
    | true =>
      rw [if_pos rfl]
      have hfst : docGet ({ w with
          node_cache := ncInsert (ncRemove w.node_cache params.path) params.path } :
          WorkspaceServer).documents params.path = some prior := hdoc
      simp only [docInsert_fst, hfst]
      exact ⟨trivial, docGet_docInsert_self _ _ _⟩
    | false =>
      rw [if_neg (by simp)]
      have hfst : docGet ({ w with
          node_cache := ncRemove w.node_cache params.path } :
          WorkspaceServer).documents params.path = some prior := hdoc
      simp only [docInsert_fst, hfst]
      exact ⟨trivial, docGet_docInsert_self _ _ _⟩

/-- Witness for C7: a `change_file` of `/r/a.js` from version 1 to 2
succeeds and stores the new content with the preserved index and flag,
and a `change_file` of a missing path fails with `not_found`. -/
theorem c7_change_file_contract_witness :
    ((Fix.exServer2.change_file Fix.exParamsChange).2 = .ok () ∧
      docGet (Fix.exServer2.change_file Fix.exParamsChange).1.documents "/r/a.js" =
        some { content := "let x=2"
               version := 2
               file_source_index := 0
               parse := .ok { text := "let x=2", has_errors := false, diagnostics := [] }
               opened_by_scanner := true }) ∧
    Fix.exServer2.change_file
        { project_key := 0, path := "/r/missing", content := "c", version := 1 } =
      (Fix.exServer2, .error .not_found) := by
  constructor
  · exact (c7_change_file_contract Fix.exServer2 Fix.exParamsChange).2 Fix.priorDoc
      (.js ⟨"js", .module⟩) rfl (by decide) rfl rfl
  · exact (c7_change_file_contract Fix.exServer2 _).1 rfl

/-! ### C5: the size-limit path -/

/-- Helper: whenever the stored document at `p` holds the too-large
marker, every parse-requiring operation fails with `file_ignored(p)`
(capability hypotheses where the operation consults the capability
table first, and a registered pattern for `search_pattern`). -/
theorem parse_requiring_ops_fail (v : WorkspaceServer) (p : Path) (d : Document)
    (ftl : FileTooLarge)
    (hd : docGet v.documents p = some d) (hp : d.parse = .error ftl) :
    v.get_parse p = .error (.file_ignored p) ∧
    (∀ pk, v.pull_diagnostics pk p = .error (.file_ignored p)) ∧
    (∀ pk, v.features.format_cap p (v.get_file_source p) = true →
      v.format_file pk p = .error (.file_ignored p)) ∧
    (v.features.debug_syntax_tree_cap p (v.get_file_source p) = true →
      v.get_syntax_tree p = .error (.file_ignored p)) ∧
    (∀ pk pid q, patGet v.patterns pid = some q →
      v.features.search_cap p (v.get_file_source p) = true →
      v.search_pattern pk p pid = .error (.file_ignored p)) := by
  have hparse : v.get_parse p = .error (.file_ignored p) := by
    unfold WorkspaceServer.get_parse
    rw [hd]
    dsimp only
    rw [hp]
  refine ⟨hparse, ?_, ?_, ?_, ?_⟩
  · intro pk
    unfold WorkspaceServer.pull_diagnostics
    rw [hparse]
  · intro pk hcap
    unfold WorkspaceServer.format_file
    rw [hcap, hparse]
    rfl
  · intro hcap
    unfold WorkspaceServer.get_syntax_tree
    rw [hcap, hparse]
    rfl
  · intro pk pid q hq hcap
    unfold WorkspaceServer.search_pattern
    rw [hq, hcap, hparse]
    rfl

/-- **C5.** An `open_file` whose client content exceeds the project size
limit succeeds and stores a document whose parse field is the too-large
marker carrying the observed size and the configured limit; afterwards
`get_parse` and every parse-requiring operation on that path fails with
`file_ignored(path)`. -/
theorem c5_size_limit_path (w : WorkspaceServer) (obs : Bool)
    (params : OpenFileParams) (content : String)
    (hc : params.content = .fromClient content)
    (hsize : content.utf8ByteSize > w.settings.get_max_file_size params.project_key) :
    (w.open_file_internal obs params).2 = .ok () ∧
    (∃ idx, docGet (w.open_file_internal obs params).1.documents params.path =
      some { content := content
             version := params.version
             file_source_index := idx
             parse := .error { size := content.utf8ByteSize
                               limit := w.settings.get_max_file_size params.project_key }
             opened_by_scanner := obs }) ∧
    (w.open_file_internal obs params).1.get_parse params.path =
      .error (.file_ignored params.path) ∧
    (∀ pk, (w.open_file_internal obs params).1.pull_diagnostics pk params.path =
      .error (.file_ignored params.path)) ∧
    (∀ pk, (w.open_file_internal obs params).1.features.format_cap params.path
        ((w.open_file_internal obs params).1.get_file_source params.path) = true →
      (w.open_file_internal obs params).1.format_file pk params.path =
        .error (.file_ignored params.path)) ∧
    ((w.open_file_internal obs params).1.features.debug_syntax_tree_cap params.path
        ((w.open_file_internal obs params).1.get_file_source params.path) = true →
      (w.open_file_internal obs params).1.get_syntax_tree params.path =
        .error (.file_ignored params.path)) ∧
    (∀ pk pid q, patGet (w.open_file_internal obs params).1.patterns pid = some q →
      (w.open_file_internal obs params).1.features.search_cap params.path
        ((w.open_file_internal obs params).1.get_file_source params.path) = true →
      (w.open_file_internal obs params).1.search_pattern pk params.path pid =
        .error (.file_ignored params.path)) := by
  have hmat : w.materialize params.path params.content = .ok content := by
    rw [hc]
    rfl
  have hmain : (w.open_file_internal obs params).2 = .ok () ∧
      docGet (w.open_file_internal obs params).1.documents params.path =
        some { content := content
               version := params.version
               file_source_index := (w.insert_source (commonjs_downgrade
                 (params.document_file_source.getD (DocumentFileSource.from_path params.path))
                 (w.settings.get_manifest params.project_key))).1
               parse := .error { size := content.utf8ByteSize
                                 limit := w.settings.get_max_file_size params.project_key }
               opened_by_scanner := obs } := by
    unfold WorkspaceServer.open_file_internal
    rw [hmat]
    dsimp only
    rw [insert_source_settings]
    rw [if_pos hsize]
    exact ⟨rfl, docGet_docInsert_self _ _ _⟩
  obtain ⟨hok, hget⟩ := hmain
  obtain ⟨hp1, hp2, hp3, hp4, hp5⟩ := parse_requiring_ops_fail
    (w.open_file_internal obs params).1 params.path _ _ hget rfl
  exact ⟨hok, ⟨_, hget⟩, hp1, hp2, hp3, hp4, hp5⟩

/-- Witness for C5: the oversized open of `/r/a.js` on the limit-2
project stores the marker document, and `get_parse`,
`pull_diagnostics`, `format_file`, `get_syntax_tree` and
`search_pattern` (with the registered pattern `p1`) all fail with
`file_ignored`. -/
theorem c5_size_limit_path_witness :
    (Fix.exServer5.open_file_internal false Fix.exParamsBig).2 = .ok () ∧
    (Fix.exServer5.open_file_internal false Fix.exParamsBig).1.get_parse "/r/a.js" =
      .error (.file_ignored "/r/a.js") ∧
    (Fix.exServer5.open_file_internal false Fix.exParamsBig).1.pull_diagnostics 0 "/r/a.js" =
      .error (.file_ignored "/r/a.js") ∧
    (Fix.exServer5.open_file_internal false Fix.exParamsBig).1.format_file 0 "/r/a.js" =
      .error (.file_ignored "/r/a.js") ∧
    (Fix.exServer5.open_file_internal false Fix.exParamsBig).1.get_syntax_tree "/r/a.js" =
      .error (.file_ignored "/r/a.js") ∧
    (Fix.exServer5.open_file_internal false Fix.exParamsBig).1.search_pattern 0 "/r/a.js" "p1" =
      .error (.file_ignored "/r/a.js") := by
  have h := c5_size_limit_path Fix.exServer5 false Fix.exParamsBig "aaaa" rfl (by decide)
  exact ⟨h.1, h.2.2.1, h.2.2.2.1 0, h.2.2.2.2.1 0 rfl, h.2.2.2.2.2.1 rfl,
    h.2.2.2.2.2.2 0 "p1" "query" rfl rfl⟩

/-! ### C8: the CommonJS downgrade -/

/-- Helper: the open-merge rule never changes the file-source index of
the freshly built document. -/
theorem mergedDocument_file_source_index_any (o : Option Document) (d0 : Document) :
    (mergedDocument o d0).file_source_index = d0.file_source_index := by
  cases o with
  | none => rfl
  | some e => exact mergedDocument_file_source_index e d0

/-- Helper: the downgrade leaves any JavaScript source whose extension
is not `js` untouched. -/
theorem commonjs_downgrade_noop (js : JsFileSource) (m : Option PackageJson)
    (h : js.file_extension ≠ "js") : commonjs_downgrade (.js js) m = .js js := by
  unfold commonjs_downgrade
  cases m with
  | none => rfl
  | some mm =>
    dsimp only
    have hfe : (js.file_extension == "js") = false := by simpa using h
    simp [hfe]

/-- **C8.** Under a manifest with `type = "commonjs"`, an inferred-source
open (`document_file_source` not supplied) with content within the size
limit interns a JavaScript source whose module kind is downgraded to
script exactly when the path's extension is `js`; for `.mjs`, `.cjs`,
`.ts`, `.tsx`, `.mts`, `.cts` the interned source is the unmodified
path-inferred source. -/
theorem c8_commonjs_downgrade (w : WorkspaceServer) (obs : Bool)
    (params : OpenFileParams) (content : String) (manifest : PackageJson)
    (hc : params.content = .fromClient content)
    (hsize : content.utf8ByteSize ≤ w.settings.get_max_file_size params.project_key)
    (hcap : ∀ s, w.features.parser_cap params.path s = true)
    (hsrc : params.document_file_source = none)
    (hman : w.settings.get_manifest params.project_key = some manifest)
    (hty : manifest.type = some .commonjs)
    (hlang : ∀ s, (w.features.parse_fn params.path s content).language = none) :
    (pathExtension params.path = some "js" →
      ∃ d, docGet (w.open_file_internal obs params).1.documents params.path = some d ∧
        (w.open_file_internal obs params).1.get_source d.file_source_index =
          some (.js ⟨"js", .script⟩)) ∧
    (∀ ext, ext ∈ (["mjs", "cjs", "ts", "tsx", "mts", "cts"] : List String) →
      pathExtension params.path = some ext →
      ∃ d, docGet (w.open_file_internal obs params).1.documents params.path = some d ∧
        (w.open_file_internal obs params).1.get_source d.file_source_index =
          some (DocumentFileSource.from_path params.path)) := by
  obtain ⟨hok, d0, hv, hobs, hcont, hparse, hget, hsrcres⟩ :=
    open_file_within_limit w obs params content hc hsize hcap
  rw [hsrc] at hsrcres
  rw [hlang] at hsrcres
  simp only [Option.getD_none, Option.getD_some] at hsrcres
  constructor
  · intro hpe
    have hfp : DocumentFileSource.from_path params.path = .js ⟨"js", .module⟩ := by
      unfold DocumentFileSource.from_path
      rw [hpe]
      decide
    rw [hfp, hman] at hsrcres
    have hdg : commonjs_downgrade (.js ⟨"js", .module⟩) (some manifest) =
        .js ⟨"js", .script⟩ := by
      unfold commonjs_downgrade
      dsimp only
      rw [hty]
      decide
    rw [hdg] at hsrcres
    refine ⟨mergedDocument (docGet w.documents params.path) d0, hget, ?_⟩
    rw [mergedDocument_file_source_index_any]
    exact hsrcres
  · intro ext hmem hpe
    have hdg : commonjs_downgrade (DocumentFileSource.from_path params.path)
        (some manifest) = DocumentFileSource.from_path params.path := by
      have key : ∀ js : JsFileSource, DocumentFileSource.from_path params.path = .js js →
          js.file_extension ≠ "js" →
          commonjs_downgrade (DocumentFileSource.from_path params.path) (some manifest) =
            DocumentFileSource.from_path params.path := by
        intro js hfp hne
        rw [hfp]
        exact commonjs_downgrade_noop js (some manifest) hne
      fin_cases hmem
      · exact key ⟨"mjs", .module⟩
          (by unfold DocumentFileSource.from_path; rw [hpe]; decide) (by decide)
      · exact key ⟨"cjs", .script⟩
          (by unfold DocumentFileSource.from_path; rw [hpe]; decide) (by decide)
      · exact key ⟨"ts", .module⟩
          (by unfold DocumentFileSource.from_path; rw [hpe]; decide) (by decide)
      · exact key ⟨"tsx", .module⟩
          (by unfold DocumentFileSource.from_path; rw [hpe]; decide) (by decide)
      · exact key ⟨"mts", .module⟩
          (by unfold DocumentFileSource.from_path; rw [hpe]; decide) (by decide)
      · exact key ⟨"cts", .script⟩
          (by unfold DocumentFileSource.from_path; rw [hpe]; decide) (by decide)
    rw [hman, hdg] at hsrcres
    refine ⟨mergedDocument (docGet w.documents params.path) d0, hget, ?_⟩
    rw [mergedDocument_file_source_index_any]
    exact hsrcres

/-- Witness for C8: under the CommonJS project, opening `/r/a.js` stores
a document whose source resolves to JS with module kind script, while
opening `/r/b.mjs` stores one resolving to the unmodified `mjs`
source. -/
theorem c8_commonjs_downgrade_witness :
    (∃ d, docGet (Fix.exServerCj.open_file_internal false Fix.exParamsCjJs).1.documents
        "/r/a.js" = some d ∧
      (Fix.exServerCj.open_file_internal false Fix.exParamsCjJs).1.get_source
        d.file_source_index = some (.js ⟨"js", .script⟩)) ∧
    (∃ d, docGet (Fix.exServerCj.open_file_internal false Fix.exParamsCjMjs).1.documents
        "/r/b.mjs" = some d ∧
      (Fix.exServerCj.open_file_internal false Fix.exParamsCjMjs).1.get_source
        d.file_source_index = some (DocumentFileSource.from_path "/r/b.mjs")) := by
  constructor
  · exact (c8_commonjs_downgrade Fix.exServerCj false Fix.exParamsCjJs "zz"
      { type := some .commonjs } rfl (by decide) (fun _ => rfl) rfl rfl rfl
      (fun _ => rfl)).1 rfl
  · exact (c8_commonjs_downgrade Fix.exServerCj false Fix.exParamsCjMjs "zz"
      { type := some .commonjs } rfl (by decide) (fun _ => rfl) rfl rfl rfl
      (fun _ => rfl)).2 "mjs" (by simp) rfl

/-! ### C10: set_manifest_for_project replaces unconditionally -/

/-- **C10.** Every `set_manifest_for_project` call succeeds and inserts a
document for the manifest path with `opened_by_scanner = false` and the
caller-supplied version, unconditionally replacing whatever document was
stored there (no open-merge rule is applied): the stored document is the
same for every prior state of the entry. -/
theorem c10_set_manifest_replaces (w : WorkspaceServer)
    (params : SetManifestForProjectParams) :
    (w.set_manifest_for_project params).2 = .ok () ∧
    docGet (w.set_manifest_for_project params).1.documents params.manifest_path =
      some { content := params.content
             version := params.version
             file_source_index := (w.insert_source .json).1
             parse := .ok (w.features.parse_json_fn params.content)
             opened_by_scanner := false } ∧
    (w.set_manifest_for_project params).1.get_source (w.insert_source .json).1 =
      some .json := by
  refine ⟨rfl, ?_, ?_⟩
  · unfold WorkspaceServer.set_manifest_for_project
    dsimp only
    rw [insert_source_features]
    exact docGet_docInsert_self _ _ _
  · unfold WorkspaceServer.set_manifest_for_project
    dsimp only
    rw [get_source_eq]
    dsimp only
    rw [← get_source_eq]
    exact insert_source_get_source w .json

/-! ### C3: feature-level ignore (code bug) -/

/-- **C3 (code bug).** The claim says that a path ignored by the
per-feature configuration of **all** requested (non-empty) features is
reported ignored. In the source the accumulator of the feature loop is
initialized to `false` and combined with `&=`, so it is identically
false: on a project whose configuration ignores every path for every
feature, `is_path_ignored` still answers `false` for a non-config path
that the top-level configuration does not ignore — contradicting the
loop's own comment "a path is ignored if it's ignored by all
features". -/
theorem c3_feature_ignore_conjunctive_bug :
    Fix.exServer3.settings.is_ignored_by_feature_config 0 "/r/a.js" .lint = true ∧
    fileName "/r/a.js" ≠ some biome_json ∧
    fileName "/r/a.js" ≠ some biome_jsonc ∧
    Fix.exServer3.is_ignored_by_top_level_config 0 "/r/a.js" = false ∧
    Fix.exServer3.is_path_ignored 0 "/r/a.js" [.lint] = .ok false := by
  refine ⟨rfl, by decide, by decide, rfl, rfl⟩

/-- Helper: the feature-ignore accumulator of `is_ignored` is
identically false, for every feature set and configuration. -/
theorem ignored_by_features_always_false (w : WorkspaceServer)
    (project_key : ProjectKey) (path : Path) (features : FeatureName) :
    features.foldl
      (fun ignored feature =>
        ignored && w.settings.is_ignored_by_feature_config project_key path feature)
      false = false := by
  induction features with
  | nil => rfl
  | cons f fs ih => simpa using ih

/-! ### C4: Biome's config file is never ignored (code bug) -/

/-- **C4 (code bug).** The claim says a path named `biome.json` or
`biome.jsonc` is never reported ignored. The guard in the source is
`file_name != biome_json || file_name != biome_jsonc`, a tautology, so
the top-level ignore rules still apply: with `files.ignore` matching
`/r/biome.json`, `is_path_ignored` answers `true` — contradicting the
source comment "Never ignore Biome's config file regardless
`include`/`ignore`". -/
theorem c4_config_file_never_ignored_bug :
    fileName "/r/biome.json" = some biome_json ∧
    Fix.exServer4.is_path_ignored 0 "/r/biome.json" [.format] = .ok true := by
  exact ⟨rfl, rfl⟩

/-! ### C9: pattern id generation -/

/-- **C9.** The pattern counter of a fresh server starts at 1, and along
any sequence of `parse_pattern`/`drop_pattern` operations the ids
returned by successful `parse_pattern` calls are pairwise distinct and
are exactly the strings `p<n>` for a strictly increasing run of
counters `n ≥ 1` — so ids are never reused, even after
`drop_pattern`. -/
theorem c9_pattern_id_generation (features : Features) (fs : FileSystemModel)
    (ops : List PatternOp) :
    (WorkspaceServer.new features fs).pattern_counter = 1 ∧
    List.Pairwise (· ≠ ·) (runPatternOps (WorkspaceServer.new features fs) ops).2 ∧
    ∃ ns : List Nat,
      (runPatternOps (WorkspaceServer.new features fs) ops).2 =
        ns.map (fun n => "p" ++ Nat.repr n) ∧
      List.Chain' (· < ·) ns ∧
      ∀ n ∈ ns, 1 ≤ n := by
  obtain ⟨ns, h1, h2, h3, h4⟩ := runPatternOps_spec ops (WorkspaceServer.new features fs)
  refine ⟨rfl, ?_, ns, h1, h2, fun n hn => (h3 n hn).1⟩
  rw [h1, List.pairwise_map]
  have hpw : List.Pairwise (· < ·) ns := List.chain'_iff_pairwise.mp h2
  exact hpw.imp (fun hab he => absurd (pattern_id_injective _ _ he) (Nat.ne_of_lt hab))

end Biome

